import Mathlib

/-!
# Verification of the auto-subtitle-processor pipeline

A shallow embedding of `autogen-subtitles.py`: the silence segmenter, the
context padder, the chunk store / resumer and the recognition dispatcher,
together with proofs of the spec's claims about them.

Audio is modelled at millisecond granularity: a pydub `AudioSegment` is a
list whose `n`-th element is the audio content of millisecond `n` (pydub
slices and concatenates segments by milliseconds, so `len`, `+`, `[a:b]`
and `AudioSegment.silent` map to list length, append, slicing and
`replicate`).  Python strings are modelled as `List Char`.  External
collaborators (pydub's `split_on_silence`, the network clients, the
speech-recognition library) are oracles passed in as parameters.
-/

namespace AutogenSubtitles

/-- One pydub `AudioSegment`: per-millisecond audio content.  `0` is the
sample value of pure silence (`AudioSegment.silent`). -/
abbrev Audio := List Int

/-- Model of `AudioSegment.silent(duration=d)`: `d` milliseconds of pure silence. -/
def silent (duration : Nat) : Audio :=
  List.replicate duration 0

/-- Python slice `xs[s:]` where `s` may be negative: a negative start counts
from the end of the sequence (`max(len(xs)+s, 0)`).  In particular `xs[-0:]`
is `xs[0:]`, the whole sequence — the pitfall embedded faithfully from
`previous_chunk[-min(len(previous_chunk), padding_duration_ms):]`. -/
def pySliceFrom (xs : Audio) (s : Int) : Audio :=
  if s < 0 then xs.drop (xs.length + s).toNat else xs.drop s.toNat

/-- Python slice `xs[s:e]` for non-negative bounds. -/
def pySlice (xs : Audio) (s e : Nat) : Audio :=
  (xs.drop s).take (e - s)

/-- Model of `add_padding_to_chunks` (src/autogen-subtitles.py lines 38-63): chunk 0
is prepended with `padding_duration_ms` of silence; chunk `i > 0` is
prepended with `chunks[i-1][-min(len(chunks[i-1]), padding_duration_ms):]`,
taken from the *original* list `chunks`, not from `padded_chunks`. -/
def add_padding_to_chunks (chunks : List Audio) (padding_duration_ms : Nat) : List Audio :=
  chunks.enum.map fun ic =>
    if ic.1 = 0 then
      silent padding_duration_ms ++ ic.2
    else
      let previous_chunk := chunks.getD (ic.1 - 1) []
      pySliceFrom previous_chunk (-(min previous_chunk.length padding_duration_ms : Int)) ++ ic.2

/-- The over-length branch of `split_audio_by_silence` (lines 94-102): a
chunk longer than `max_chunk_length` is cut into
`num_subchunks = len(chunk) // max_chunk_length + 1` fixed-offset slices
`chunk[i*max : min((i+1)*max, len(chunk))]`. -/
def split_long_chunk (chunk : Audio) (max_chunk_length : Nat) : List Audio :=
  let num_subchunks := chunk.length / max_chunk_length + 1
  (List.range num_subchunks).map fun i =>
    let start_ms := i * max_chunk_length
    let end_ms := min ((i + 1) * max_chunk_length) chunk.length
    pySlice chunk start_ms end_ms

/-- Model of `split_audio_by_silence` (lines 66-104).  `detected_chunks` is the
result of the external pydub `split_on_silence` collaborator (which consumes
`min_silence_len`, `silence_thresh` and `keep_silence`); the function falls
back to the whole track when it is empty, enforces the length ceiling chunk
by chunk, and finally applies `add_padding_to_chunks` with `overlap_ms`. -/
def split_audio_by_silence (sound_file : Audio) (detected_chunks : List Audio)
    (max_chunk_length : Nat) (overlap_ms : Nat) : List Audio :=
  let initial_chunks := if detected_chunks.isEmpty then [sound_file] else detected_chunks
  let final_chunks := initial_chunks.flatMap fun chunk =>
    if chunk.length ≤ max_chunk_length then [chunk] else split_long_chunk chunk max_chunk_length
  add_padding_to_chunks final_chunks overlap_ms

/-! ## Recognition dispatcher (`recognize_audio`, `recognize_audio_chunks`) -/

/-- What the vendor call inside `recognize_audio`'s `try` block (lines
148-164) does: it either returns a value — a string, or Python `None` when
`transcribe_audio_naver` hits a non-200 response — or raises
`sr.UnknownValueError` or `sr.RequestError`. -/
inductive VendorOutcome where
  | value (text : Option String)
  | unknownValueError (e : String)
  | requestErrorRaised (e : String)
  deriving DecidableEq

/-- Python `f"{x}"` for a value that is a string or `None`. -/
def pyStr : Option String → String
  | some t => t
  | none => "None"

/-- The arguments `recognize_audio` hands to the selected vendor
collaborator: the chunk's audio content and a language tag. -/
structure VendorCall where
  audio : Audio
  language : String
  deriving DecidableEq

/-- The side effects of `recognize_audio`, in program order. -/
inductive Action where
  | adjustForAmbientNoise
  | record
  | callVendor (vendor : String)
  deriving DecidableEq

/-- The vendor backend actually invoked by the `if/elif` chain of
`recognize_audio` (lines 149-164): an unrecognized vendor string falls back
to `recognizer.recognize_google`. -/
def effective_vendor (vendor : String) : String :=
  if vendor = "google-cloud" then "google-cloud"
  else if vendor = "naver" then "naver"
  else if vendor = "whisper" then "whisper"
  else "google"

/-- One execution of `recognize_audio` (lines 143-169), split into its
observable aspects: the ordered side effects (`actions`), the arguments
given to the vendor collaborator (`call`), and the line printed for the
chunk (`line`). -/
structure RecognizeStep where
  actions : List Action
  call : VendorCall
  line : String
  deriving DecidableEq

/-- Model of `recognize_audio(recognizer, prefix, audio_file, vendor, language)`
(lines 143-169).  The `with sr.AudioFile` block first runs
`adjust_for_ambient_noise` and `record` unconditionally, then dispatches on
`vendor`.  `recognize_google_cloud`, `recognize_whisper` and the default
`recognize_google` all receive `(audio_data, language)`;
`transcribe_audio_naver` posts the chunk file's bytes to a URL whose query
string hardcodes `lang=Kor`, ignoring the `language` parameter.  The printed
line is the successful `f"{prefix}{text}"`, or one of the two `except`
handlers' diagnostics. -/
def recognize_audio (pfx : String) (audio_data : Audio) (vendor language : String)
    (outcome : VendorOutcome) : RecognizeStep :=
  { actions := [.adjustForAmbientNoise, .record, .callVendor (effective_vendor vendor)]
    call :=
      if vendor = "google-cloud" then { audio := audio_data, language := language }
      else if vendor = "naver" then { audio := audio_data, language := "Kor" }
      else if vendor = "whisper" then { audio := audio_data, language := language }
      else { audio := audio_data, language := language }
    line :=
      match outcome with
      | .value t => pfx ++ pyStr t
      | .unknownValueError e =>
          pfx ++ " " ++ vendor ++ " Recognition could not understand audio; " ++ e
      | .requestErrorRaised e =>
          pfx ++ " Could not request results from " ++ vendor ++ " Recognition service; " ++ e }

/-- Decimal digit characters, the building blocks of Python `str(i)`. -/
def digitChar10 : Nat → Char
  | 0 => '0'
  | 1 => '1'
  | 2 => '2'
  | 3 => '3'
  | 4 => '4'
  | 5 => '5'
  | 6 => '6'
  | 7 => '7'
  | 8 => '8'
  | _ => '9'

/-- Decimal digits of `n`, least significant first; `fuel` bounds the
recursion depth (any `fuel > n` is enough). -/
def natDigitsRevAux : Nat → Nat → List Char
  | 0, _ => []
  | fuel + 1, n =>
    if n < 10 then [digitChar10 n]
    else digitChar10 (n % 10) :: natDigitsRevAux fuel (n / 10)

/-- Decimal digits of `n`, least significant first. -/
def natDigitsRev (n : Nat) : List Char :=
  natDigitsRevAux (n + 1) n

/-- Python `str(i)` for a non-negative integer: its decimal digits. -/
def pyStrNat (n : Nat) : List Char :=
  (natDigitsRev n).reverse

/-- The HTTP response seen by `transcribe_audio_naver`: a status code and
the `text` field of the JSON body (when present). -/
structure HttpResponse where
  status_code : Nat
  jsonText : Option String
  deriving DecidableEq

/-- Model of `transcribe_audio_naver` (lines 124-140), given the collaborator's
response: on status 200 it returns `response.json().get('text', '')`;
otherwise it prints `Error Code: {status}` and returns `None`.  First
component: lines printed; second: the value returned. -/
def transcribe_audio_naver (response : HttpResponse) : List String × Option String :=
  if response.status_code = 200 then ([], some (response.jsonText.getD ""))
  else (["Error Code: " ++ String.mk (pyStrNat response.status_code)], none)

/-- Chunk artifact names: Python `f"chunk{i}.wav"` (line 117). -/
def chunkName (i : Nat) : List Char :=
  ['c', 'h', 'u', 'n', 'k'] ++ pyStrNat i ++ ['.', 'w', 'a', 'v']

/-- A persisted chunk artifact: a file name (a Python string, modelled as
its character list) and the audio content written to it. -/
structure ChunkFile where
  name : List Char
  content : Audio
  deriving DecidableEq

/-- The persistence half of `recognize_audio_chunks` (lines 115-118): chunk
`i` is exported to the file `chunk{i}.wav`. -/
def persist_chunks (audio_chunks : List Audio) : List ChunkFile :=
  audio_chunks.enum.map fun ic => { name := chunkName ic.1, content := ic.2 }

/-- The recognition loop of `recognize_audio_chunks` (lines 115-121): for
each chunk index `i` it calls `recognize_audio` with the prefix `f"{i}: "`;
this is the line printed for chunk `i`.  `oracle i` is what the vendor call
for chunk `i` does. -/
def recognize_audio_chunks (audio_chunks : List Audio) (vendor language : String)
    (oracle : Nat → VendorOutcome) : List String :=
  (List.range audio_chunks.length).map fun i =>
    (recognize_audio (String.mk (pyStrNat i) ++ ": ") (audio_chunks.getD i []) vendor language
      (oracle i)).line

/-- The spec's `RecognitionResult` for one chunk: `Succeeded(text)` or
`Failed(kind)`. -/
inductive RecognitionResult where
  | succeeded (text : String)
  | failed (kind : String)
  deriving DecidableEq

/-- Classification of `recognize_audio`'s three terminal branches into the
spec's result taxonomy: the success print is `Succeeded`,
`sr.UnknownValueError` is `Failed(Unintelligible)`, `sr.RequestError` is
`Failed(BackendUnavailable)`. -/
def resultOf : VendorOutcome → RecognitionResult
  | .value t => .succeeded (pyStr t)
  | .unknownValueError _ => .failed "Unintelligible"
  | .requestErrorRaised _ => .failed "BackendUnavailable"

/-- The per-chunk results surfaced by the dispatcher loop, in index
order. -/
def dispatch_results (n : Nat) (oracle : Nat → VendorOutcome) : List RecognitionResult :=
  (List.range n).map fun i => resultOf (oracle i)

/-! ## Chunk store / resumer (`find_existing_chunks`) -/

/-- Python `base.replace('chunk', '')`: remove every (left-to-right,
non-overlapping) occurrence of the substring `chunk`. -/
def replaceChunk : List Char → List Char
  | 'c' :: 'h' :: 'u' :: 'n' :: 'k' :: rest => replaceChunk rest
  | c :: rest => c :: replaceChunk rest
  | [] => []

/-- The numeric value of a decimal digit character. -/
def digitVal (c : Char) : Option Nat :=
  if c.isDigit then some (c.toNat - 48) else none

/-- Accumulating decimal parse of the remaining characters. -/
def parseDigitsAux : Nat → List Char → Option Nat
  | acc, [] => some acc
  | acc, c :: cs =>
    match digitVal c with
    | some d => parseDigitsAux (acc * 10 + d) cs
    | none => none

/-- Python `int(s)` on the strings that can arise as chunk-name suffixes:
a non-empty string of decimal digits parses to its value, anything else
raises `ValueError` (`none`). -/
def pyInt : List Char → Option Nat
  | [] => none
  | c :: cs =>
    match digitVal c with
    | some d => parseDigitsAux d cs
    | none => none

/-- The sort key of `find_existing_chunks` (lines 181-182):
`int(os.path.splitext(os.path.basename(x))[0].replace('chunk', ''))`.
Names in the store are basenames ending in `.wav`, so `splitext` drops the
last four characters. -/
def parseChunkIndex (name : List Char) : Option Nat :=
  pyInt (replaceChunk (name.take (name.length - 4)))

/-- Membership in `glob.glob('chunk*.wav')` for a basename: the name starts
with `chunk` and ends with `.wav`. -/
def matchesChunkGlob (name : List Char) : Bool :=
  List.isPrefixOf ['c', 'h', 'u', 'n', 'k'] name && List.isSuffixOf ['.', 'w', 'a', 'v'] name

/-- Evaluation of the sort key on every globbed file; Python's `sorted`
computes the key of each element, so a single unparsable name raises and
aborts the whole call (`none`). -/
def parseAllIndices : List ChunkFile → Option (List (Nat × Audio))
  | [] => some []
  | f :: fs =>
    match parseChunkIndex f.name, parseAllIndices fs with
    | some k, some rest => some ((k, f.content) :: rest)
    | _, _ => none

/-- Model of `find_existing_chunks` (lines 172-186) over a directory modelled as the
list of files it contains (in the arbitrary order `glob` returns them):
keep the names matching `chunk*.wav`, sort them by the numeric index parsed
from each name (Python's `sorted` is a stable comparison sort, modelled by
`List.insertionSort`), and load their contents in that order.  `none` is an
uncaught `ValueError` from `int()`. -/
def find_existing_chunks (files : List ChunkFile) : Option (List Audio) :=
  let chunk_files := files.filter fun f => matchesChunkGlob f.name
  match parseAllIndices chunk_files with
  | some keyed =>
      some ((List.insertionSort (fun a b : Nat × Audio => a.1 ≤ b.1) keyed).map Prod.snd)
  | none => none

/-- The trailing `m` milliseconds of a clip (for `m ≤ length` this is the
clip's last `m` elements). -/
def lastMs (xs : Audio) (m : Nat) : Audio :=
  xs.drop (xs.length - m)

example : add_padding_to_chunks [[1, 2, 3], [4, 5]] 2 = [[0, 0, 1, 2, 3], [2, 3, 4, 5]] := by
  decide

example : add_padding_to_chunks [[1], [2]] 0 = [[1], [1, 2]] := by decide

example : split_long_chunk [1, 2, 3, 4] 2 = [[1, 2], [3, 4], []] := by decide

example : split_long_chunk [1, 2, 3, 4, 5] 2 = [[1, 2], [3, 4], [5]] := by decide

example : pyStrNat 130 = ['1', '3', '0'] := by decide

example : parseChunkIndex (chunkName 12) = some 12 := by decide

example : chunkName 3 = "chunk3.wav".toList := by decide

example :
    find_existing_chunks [⟨chunkName 10, [10]⟩, ⟨chunkName 2, [2]⟩, ⟨chunkName 0, [0]⟩] =
      some [[0], [2], [10]] := by decide

example : find_existing_chunks [] = some [] := rfl

example : find_existing_chunks [⟨"chunkfoo.wav".toList, [1]⟩] = none := by decide

example :
    (recognize_audio "1: " [7] "naver" "ko-KR" (.unknownValueError "err")).line =
      "1:  naver Recognition could not understand audio; err" := by decide

example : (recognize_audio "0: " [7] "naver" "ko-KR" (.value none)).line = "0: None" := by decide

example : transcribe_audio_naver ⟨500, none⟩ = (["Error Code: 500"], none) := by decide

/-! ## General lemmas about the embedding -/

theorem add_padding_length (chunks : List Audio) (p : Nat) :
    (add_padding_to_chunks chunks p).length = chunks.length := by
  simp [add_padding_to_chunks]

theorem add_padding_getElem? (chunks : List Audio) (p : Nat) (i : Nat) :
    (add_padding_to_chunks chunks p)[i]? =
      (chunks[i]?).map fun c =>
        if i = 0 then silent p ++ c
        else
          let previous_chunk := chunks.getD (i - 1) []
          pySliceFrom previous_chunk (-(min previous_chunk.length p : Int)) ++ c := by
  simp only [add_padding_to_chunks, List.getElem?_map, List.getElem?_enum, Option.map_map]
  rfl

theorem pySliceFrom_neg_min (xs : Audio) (p : Nat) (hp : 0 < p) :
    pySliceFrom xs (-(min xs.length p : Int)) = lastMs xs (min p xs.length) := by
  unfold pySliceFrom lastMs
  rcases Nat.eq_zero_or_pos xs.length with h0 | h0
  · have hxs : xs = [] := List.length_eq_zero.mp h0
    subst hxs
    simp
  · have hmin : 0 < min xs.length p := lt_min h0 hp
    rw [if_pos (by omega)]
    congr 1
    omega

theorem split_long_chunk_length (chunk : Audio) (m : Nat) :
    (split_long_chunk chunk m).length = chunk.length / m + 1 := by
  simp [split_long_chunk]

theorem split_long_chunk_map_length (chunk : Audio) (m : Nat) :
    (split_long_chunk chunk m).map List.length =
      (List.range (chunk.length / m + 1)).map fun i =>
        min ((i + 1) * m) chunk.length - i * m := by
  simp only [split_long_chunk, List.map_map]
  refine List.map_congr_left fun i _ => ?_
  simp only [Function.comp_apply, pySlice, List.length_take, List.length_drop]
  omega

theorem split_long_chunk_getElem? (chunk : Audio) (m : Nat) (i : Nat)
    (hi : i < chunk.length / m + 1) :
    (split_long_chunk chunk m)[i]? =
      some (pySlice chunk (i * m) (min ((i + 1) * m) chunk.length)) := by
  simp [split_long_chunk, List.getElem?_range, hi]

theorem split_long_chunk_le (chunk : Audio) (m : Nat) :
    ∀ c ∈ split_long_chunk chunk m, c.length ≤ m := by
  intro c hc
  simp only [split_long_chunk, List.mem_map, List.mem_range] at hc
  obtain ⟨i, -, rfl⟩ := hc
  simp only [pySlice, List.length_take, List.length_drop]
  have hm : (i + 1) * m = i * m + m := by ring
  omega

/-! ## Claim C1: the length ceiling -/

/-- Claim C1 (counterexample).  The claim says an over-long candidate clip is
partitioned into `ceil(duration / max_chunk_length)` sub-clips.  For a clip
of 4 ms with `max_chunk_length = 2` (duration exceeds the ceiling, and the
ceiling divides the duration exactly), `ceil(4 / 2) = (4 + 2 - 1) / 2 = 2`,
but the code computes `num_subchunks = 4 // 2 + 1 = 3` and emits three
sub-clips, the last one empty. -/
theorem C1_counterexample_exact_multiple :
    ¬ (split_long_chunk (List.replicate 4 0) 2).length = (4 + 2 - 1) / 2 := by
  decide

/-- Claim C1 (amended).  A candidate clip whose duration exceeds
`max_chunk_length` is partitioned into `duration / max_chunk_length + 1`
fixed-offset sub-clips — which equals `ceil(duration / max_chunk_length)`
whenever `max_chunk_length` does not divide the duration, and is one more
than the ceiling (with a trailing empty sub-clip) when it does.  Sub-clip
`i` is the fixed-offset slice `chunk[i*max : min((i+1)*max, len)]`, every
emitted sub-clip's duration is ≤ `max_chunk_length`, and a 130000 ms clip
with `max_chunk_length = 45000` yields exactly 3 sub-clips of lengths
45000/45000/40000 ms. -/
theorem C1_ceiling_enforced (chunk : Audio) (m : Nat) (hm : 0 < m)
    (hlong : m < chunk.length) :
    (split_long_chunk chunk m).length = chunk.length / m + 1 ∧
    (¬ m ∣ chunk.length →
      (split_long_chunk chunk m).length = (chunk.length + m - 1) / m) ∧
    (m ∣ chunk.length →
      (split_long_chunk chunk m).length = (chunk.length + m - 1) / m + 1 ∧
        (split_long_chunk chunk m).getLast? = some []) ∧
    (∀ c ∈ split_long_chunk chunk m, c.length ≤ m) ∧
    (∀ i, i < chunk.length / m + 1 →
      (split_long_chunk chunk m)[i]? =
        some (pySlice chunk (i * m) (min ((i + 1) * m) chunk.length))) ∧
    (chunk.length = 130000 → m = 45000 →
      (split_long_chunk chunk m).map List.length = [45000, 45000, 40000]) := by
  have hdm : m * (chunk.length / m) + chunk.length % m = chunk.length :=
    Nat.div_add_mod chunk.length m
  have hrm : chunk.length % m < m := Nat.mod_lt _ hm
  refine ⟨split_long_chunk_length chunk m, ?_, ?_, split_long_chunk_le chunk m,
    fun i hi => split_long_chunk_getElem? chunk m i hi, ?_⟩
  · intro hnd
    have hr0 : chunk.length % m ≠ 0 := fun h => hnd (Nat.dvd_of_mod_eq_zero h)
    rw [split_long_chunk_length]
    have h1 : chunk.length + m - 1 =
        (chunk.length % m - 1) + (chunk.length / m + 1) * m := by
      have h2 : (chunk.length / m + 1) * m = m * (chunk.length / m) + m := by ring
      omega
    have hx : (chunk.length % m - 1) / m = 0 := Nat.div_eq_of_lt (by omega)
    rw [h1, Nat.add_mul_div_right _ _ hm, hx]
    omega
  · intro hdvd
    obtain ⟨k, hk⟩ := hdvd
    have hr0 : chunk.length % m = 0 := by
      rw [hk]
      exact Nat.mul_mod_right m k
    constructor
    · rw [split_long_chunk_length]
      have h1 : chunk.length + m - 1 = (m - 1) + (chunk.length / m) * m := by
        have h2 : (chunk.length / m) * m = m * (chunk.length / m) := by ring
        omega
      have hx : (m - 1) / m = 0 := Nat.div_eq_of_lt (by omega)
      rw [h1, Nat.add_mul_div_right _ _ hm, hx]
      omega
    · have hlen : (split_long_chunk chunk m).length = chunk.length / m + 1 :=
        split_long_chunk_length chunk m
      have hne : split_long_chunk chunk m ≠ [] := by
        intro h
        rw [h] at hlen
        simp at hlen
      rw [List.getLast?_eq_getElem? ]
      rw [hlen]
      simp only [Nat.add_sub_cancel]
      rw [split_long_chunk_getElem? chunk m _ (by omega)]
      have hempty : pySlice chunk (chunk.length / m * m)
          (min ((chunk.length / m + 1) * m) chunk.length) = [] := by
        simp only [pySlice]
        rw [List.take_eq_nil_iff]
        left
        have h2 : (chunk.length / m) * m = m * (chunk.length / m) := by ring
        omega
      rw [hempty]
  · intro h130 h45
    rw [split_long_chunk_map_length, h130, h45]
    decide

/-- Claim C1 witness: a 5 ms clip with ceiling 2 ms is split into
`5 / 2 + 1 = 3` sub-clips. -/
theorem C1_ceiling_enforced_witness :
    (split_long_chunk (List.replicate 5 0) 2).length =
      (List.replicate 5 (0 : Int)).length / 2 + 1 :=
  (C1_ceiling_enforced (List.replicate 5 0) 2 (by decide) (by decide)).1

/-! ## Claim C2: padding from the unpadded predecessor -/

/-- Claim C2 (counterexample).  With `padding_ms = 0` the claim predicts that
chunk 1 is prepended with the trailing `min(0, 1) = 0` ms of clip 0, i.e.
stays `[2]`.  The code computes `previous_chunk[-0:]`, which in Python is
the *whole* previous clip, so chunk 1 becomes `[1, 2]`. -/
theorem C2_counterexample_zero_padding :
    ¬ (add_padding_to_chunks [[1], [2]] 0).getD 1 [] =
        lastMs [1] (min 0 ([1] : Audio).length) ++ [2] := by
  decide

/-- Claim C2 (amended).  For every `padding_ms > 0`: chunk 0 is clip 0
prepended with exactly `padding_ms` of pure silence, and chunk `i > 0` is
clip `i` prepended with the trailing `min(padding_ms, duration(clip[i-1]))`
milliseconds of clip `i-1`'s *original, unpadded* content (the code reads
`chunks[i-1]`, never the already-padded output). -/
theorem C2_padding_from_unpadded (chunks : List Audio) (p : Nat) (hp : 0 < p) :
    (∀ c0, chunks[0]? = some c0 →
      (add_padding_to_chunks chunks p)[0]? = some (silent p ++ c0)) ∧
    ∀ i, 0 < i → ∀ ci, chunks[i]? = some ci →
      (add_padding_to_chunks chunks p)[i]? =
        some (lastMs (chunks.getD (i - 1) [])
          (min p (chunks.getD (i - 1) []).length) ++ ci) := by
  constructor
  · intro c0 h0
    rw [add_padding_getElem?, h0]
    simp
  · intro i hi ci hci
    rw [add_padding_getElem?, hci]
    simp only [Option.map_some']
    rw [if_neg (by omega), pySliceFrom_neg_min _ _ hp]

/-- Claim C2 witness: two clips `[1]` and `[2]` with `padding_ms = 1`; chunk 1
is the trailing 1 ms of clip 0 followed by clip 1. -/
theorem C2_padding_from_unpadded_witness :
    (add_padding_to_chunks [[1], [2]] 1)[1]? =
      some (lastMs ([[1], [2]].getD 0 [])
        (min 1 (([[1], [2]] : List Audio).getD 0 []).length) ++ [2]) :=
  (C2_padding_from_unpadded [[1], [2]] 1 (by decide)).2 1 (by decide) [2] (by decide)

/-! ## Claim C6: degenerate no-silence case -/

/-- Claim C6 (confirmed).  When the silence detector finds nothing, the whole
track is the single candidate clip; if moreover its duration is below
`max_chunk_length`, the pipeline emits exactly one chunk, equal to the full
track with only the mandatory leading silence pad prepended — no audio is
discarded. -/
theorem C6_degenerate_single_chunk (track : Audio) (detected : List Audio)
    (m pad : Nat) (hno : detected = []) (hshort : track.length < m) :
    split_audio_by_silence track detected m pad = [silent pad ++ track] := by
  subst hno
  simp [split_audio_by_silence, Nat.le_of_lt hshort, add_padding_to_chunks]

/-- Claim C6 witness: a 3 ms track, no detected silence, ceiling 5 ms,
padding 2 ms — one chunk: 2 ms of silence then the full track. -/
theorem C6_degenerate_single_chunk_witness :
    split_audio_by_silence [1, 2, 3] [] 5 2 = [silent 2 ++ [1, 2, 3]] :=
  C6_degenerate_single_chunk [1, 2, 3] [] 5 2 rfl (by decide)

/-! ## Claim C7: count, order and index invariants -/

/-- Claim C7 (confirmed).  Padding emits exactly one chunk per input clip in
the same order (chunk `i` ends with clip `i`), and the dispatcher loop
emits exactly one labeled line per chunk, where line `i` is produced by
`recognize_audio` with the prefix `f"{i}: "` on chunk `i` — indices
`0..n-1`, no gaps, no reordering. -/
theorem C7_one_chunk_per_clip (clips : List Audio) (p : Nat) (vendor language : String)
    (oracle : Nat → VendorOutcome) :
    (add_padding_to_chunks clips p).length = clips.length ∧
    (∀ i, i < clips.length → ∃ overlap,
      (add_padding_to_chunks clips p)[i]? = some (overlap ++ clips.getD i [])) ∧
    (recognize_audio_chunks (add_padding_to_chunks clips p) vendor language oracle).length =
      clips.length ∧
    ∀ i, i < clips.length →
      (recognize_audio_chunks (add_padding_to_chunks clips p) vendor language oracle)[i]? =
        some ((recognize_audio (String.mk (pyStrNat i) ++ ": ")
          ((add_padding_to_chunks clips p).getD i []) vendor language (oracle i)).line) := by
  refine ⟨add_padding_length clips p, ?_, ?_, ?_⟩
  · intro i hi
    have hget : clips[i]? = some clips[i] := List.getElem?_eq_getElem hi
    have hgetD : clips.getD i [] = clips[i] := List.getD_eq_getElem clips [] hi
    rw [add_padding_getElem?, hget, hgetD]
    by_cases h0 : i = 0
    · exact ⟨silent p, by simp [h0]⟩
    · refine ⟨pySliceFrom (clips.getD (i - 1) [])
        (-(min (clips.getD (i - 1) []).length p : Int)), ?_⟩
      simp [h0]
  · simp [recognize_audio_chunks, add_padding_length]
  · intro i hi
    have hlen : i < (add_padding_to_chunks clips p).length := by
      rw [add_padding_length]; exact hi
    simp [recognize_audio_chunks, List.getElem?_range, hlen]

/-- Claim C7 witness at two concrete clips, padding 2, vendor `naver`. -/
theorem C7_one_chunk_per_clip_witness :
    ((add_padding_to_chunks [[1], [2]] 2).length = 2 ∧
      ∃ overlap, (add_padding_to_chunks [[1], [2]] 2)[1]? =
        some (overlap ++ ([[1], [2]] : List Audio).getD 1 [])) ∧
    (recognize_audio_chunks (add_padding_to_chunks [[1], [2]] 2) "naver" "ko-KR"
        (fun _ => .value (some "t"))).length = 2 := by
  have h := C7_one_chunk_per_clip [[1], [2]] 2 "naver" "ko-KR" (fun _ => .value (some "t"))
  exact ⟨⟨h.1, h.2.1 1 (by decide)⟩, h.2.2.1⟩

/-! ## Claim C3: chunk-level failures are isolated -/

/-- Claim C3 (confirmed).  For every chunk sequence: the dispatcher emits
exactly one line and one result per chunk, in index order; when the vendor
call for chunk `i` raises `UnknownValueError` (Unintelligible) or
`RequestError` (BackendUnavailable), the line at position `i` is the inline
diagnostic carrying chunk `i`'s index prefix and the vendor, the result at
position `i` is `Failed(kind)`, and every other chunk is still processed
(the output always has one entry per chunk).  Concretely, 3 chunks whose
middle vendor call raises `UnknownValueError` yield
`[Succeeded, Failed(Unintelligible), Succeeded]`. -/
theorem C3_failure_isolation :
    (∀ (chunks : List Audio) (vendor language : String) (oracle : Nat → VendorOutcome),
      (recognize_audio_chunks chunks vendor language oracle).length = chunks.length ∧
      (dispatch_results chunks.length oracle).length = chunks.length ∧
      (∀ i, i < chunks.length → ∀ e, oracle i = .unknownValueError e →
        (recognize_audio_chunks chunks vendor language oracle)[i]? =
          some (String.mk (pyStrNat i) ++ ": " ++ " " ++ vendor ++
            " Recognition could not understand audio; " ++ e) ∧
        (dispatch_results chunks.length oracle)[i]? = some (.failed "Unintelligible")) ∧
      (∀ i, i < chunks.length → ∀ e, oracle i = .requestErrorRaised e →
        (recognize_audio_chunks chunks vendor language oracle)[i]? =
          some (String.mk (pyStrNat i) ++ ": " ++ " Could not request results from " ++
            vendor ++ " Recognition service; " ++ e) ∧
        (dispatch_results chunks.length oracle)[i]? = some (.failed "BackendUnavailable"))) ∧
    dispatch_results 3
        (fun i => if i = 1 then .unknownValueError "u" else .value (some "text")) =
      [.succeeded "text", .failed "Unintelligible", .succeeded "text"] := by
  constructor
  · intro chunks vendor language oracle
    refine ⟨by simp [recognize_audio_chunks], by simp [dispatch_results], ?_, ?_⟩
    · intro i hi e he
      constructor
      · simp [recognize_audio_chunks, List.getElem?_range, hi, he, recognize_audio]
      · simp [dispatch_results, List.getElem?_range, hi, he, resultOf]
    · intro i hi e he
      constructor
      · simp [recognize_audio_chunks, List.getElem?_range, hi, he, recognize_audio]
      · simp [dispatch_results, List.getElem?_range, hi, he, resultOf]
  · decide

/-- Claim C3 witness: one chunk whose vendor call raises `UnknownValueError`
is surfaced as `Failed(Unintelligible)`. -/
theorem C3_failure_isolation_witness :
    (dispatch_results ([[1]] : List Audio).length fun _ => .unknownValueError "e")[0]? =
      some (.failed "Unintelligible") :=
  ((C3_failure_isolation.1 [[1]] "naver" "ko-KR" fun _ => .unknownValueError "e").2.2.1
    0 (by decide) "e" rfl).2

/-! ## Claim C5: arguments of the vendor call -/

/-- Claim C5 (counterexample).  The claim says every vendor call receives the
run's language parameter.  For the `naver` vendor with the run language
`ko-KR`, the call is made with the hardcoded query `lang=Kor`, not with the
run's language tag. -/
theorem C5_counterexample_naver_language :
    ¬ (recognize_audio "0: " [7] "naver" "ko-KR" (.value (some "t"))).call =
        { audio := [7], language := "ko-KR" } := by
  decide

/-- Claim C5 (amended).  Every vendor call receives the chunk's audio bytes;
the `google-cloud`, `whisper` and default vendors also receive the run's
language parameter, but the `naver` vendor receives the hardcoded language
tag `Kor` regardless of the run's language parameter. -/
theorem C5_amended_call_arguments (pfx : String) (audio_data : Audio)
    (vendor language : String) (outcome : VendorOutcome) :
    (recognize_audio pfx audio_data vendor language outcome).call.audio = audio_data ∧
    (vendor ≠ "naver" →
      (recognize_audio pfx audio_data vendor language outcome).call.language = language) ∧
    (vendor = "naver" →
      (recognize_audio pfx audio_data vendor language outcome).call.language = "Kor") := by
  refine ⟨?_, ?_, ?_⟩ <;>
    simp only [recognize_audio] <;>
    split_ifs <;>
    simp_all

/-- Claim C5 witness: the `whisper` vendor receives the run's language. -/
theorem C5_amended_call_arguments_witness :
    (recognize_audio "0: " [1] "whisper" "en-US" (.value (some "x"))).call.language =
      "en-US" :=
  (C5_amended_call_arguments "0: " [1] "whisper" "en-US" (.value (some "x"))).2.1 (by decide)

/-! ## Claim C9: naver non-200 responses print `None` -/

/-- Claim C9 (confirmed).  On a non-200 response the naver vendor function
prints the status code and returns Python `None`; no exception is raised,
so the dispatcher's success path prints the literal `None` behind the chunk
index prefix (classified `Succeeded("None")`, not a tagged failure
diagnostic), and the following chunks are still processed. -/
theorem C9_naver_non200_prints_None :
    transcribe_audio_naver ⟨500, none⟩ = (["Error Code: 500"], none) ∧
    (recognize_audio "0: " [1] "naver" "ko-KR"
        (.value (transcribe_audio_naver ⟨500, none⟩).2)).line = "0: None" ∧
    resultOf (.value (transcribe_audio_naver ⟨500, none⟩).2) = .succeeded "None" ∧
    recognize_audio_chunks [[1], [2]] "naver" "ko-KR"
        (fun i => if i = 0 then .value (transcribe_audio_naver ⟨500, none⟩).2
          else .value (some "t")) = ["0: None", "1: t"] := by
  exact ⟨by decide, by decide, by decide, by decide⟩

/-! ## Claim C10: ambient-noise calibration for every vendor -/

/-- Claim C10 (confirmed).  `recognize_audio` runs
`adjust_for_ambient_noise` and then `record` unconditionally, before the
vendor dispatch, for every vendor string — including `naver`, `whisper`
and the default fallback — so for every chunk the calibrate-then-record
sequence precedes the vendor call regardless of the vendor. -/
theorem C10_calibration_before_every_vendor_call (pfx : String) (audio_data : Audio)
    (vendor language : String) (outcome : VendorOutcome) :
    (recognize_audio pfx audio_data vendor language outcome).actions =
      [.adjustForAmbientNoise, .record, .callVendor (effective_vendor vendor)] :=
  rfl

/-! ## Decimal rendering and parsing round-trip -/

theorem digitChar10_isDigit (d : Nat) : (digitChar10 d).isDigit = true := by
  match d with
  | 0 | 1 | 2 | 3 | 4 | 5 | 6 | 7 | 8 => decide
  | n + 9 => rfl

theorem digitVal_digitChar10 (d : Nat) (h : d < 10) : digitVal (digitChar10 d) = some d := by
  interval_cases d <;> decide

theorem natDigitsRevAux_fuel (n : Nat) :
    ∀ f1 f2, n < f1 → n < f2 → natDigitsRevAux f1 n = natDigitsRevAux f2 n := by
  induction n using Nat.strong_induction_on with
  | _ n ih =>
    intro f1 f2 h1 h2
    obtain ⟨fa, rfl⟩ : ∃ fa, f1 = fa + 1 := ⟨f1 - 1, by omega⟩
    obtain ⟨fb, rfl⟩ : ∃ fb, f2 = fb + 1 := ⟨f2 - 1, by omega⟩
    simp only [natDigitsRevAux]
    by_cases h10 : n < 10
    · simp [h10]
    · simp only [h10, if_false]
      have hdiv : n / 10 < n := Nat.div_lt_self (by omega) (by omega)
      rw [ih (n / 10) hdiv fa fb (by omega) (by omega)]

theorem natDigitsRev_eq (n : Nat) :
    natDigitsRev n =
      if n < 10 then [digitChar10 n]
      else digitChar10 (n % 10) :: natDigitsRev (n / 10) := by
  have h1 : natDigitsRev n =
      if n < 10 then [digitChar10 n]
      else digitChar10 (n % 10) :: natDigitsRevAux n (n / 10) := rfl
  rw [h1]
  by_cases h10 : n < 10
  · simp [h10]
  · simp only [h10, if_false]
    have hdiv : n / 10 < n := Nat.div_lt_self (by omega) (by omega)
    rw [natDigitsRevAux_fuel (n / 10) n (n / 10 + 1) hdiv (by omega)]
    rfl

theorem natDigitsRev_ne_nil (n : Nat) : natDigitsRev n ≠ [] := by
  rw [natDigitsRev_eq]
  split <;> simp

theorem natDigitsRev_isDigit (n : Nat) : ∀ c ∈ natDigitsRev n, c.isDigit = true := by
  induction n using Nat.strong_induction_on with
  | _ n ih =>
    rw [natDigitsRev_eq]
    by_cases h10 : n < 10
    · simp [h10, digitChar10_isDigit]
    · simp only [h10, if_false]
      intro c hc
      rcases List.mem_cons.mp hc with h | h
      · subst h
        exact digitChar10_isDigit _
      · exact ih (n / 10) (Nat.div_lt_self (by omega) (by omega)) c h

theorem parseDigitsAux_append (xs : List Char) :
    ∀ (acc : Nat) (c : Char),
      parseDigitsAux acc (xs ++ [c]) =
        match parseDigitsAux acc xs, digitVal c with
        | some v, some d => some (v * 10 + d)
        | _, _ => none := by
  induction xs with
  | nil =>
    intro acc c
    simp only [List.nil_append, parseDigitsAux]
    cases digitVal c <;> simp [parseDigitsAux]
  | cons x xs ih =>
    intro acc c
    simp only [List.cons_append, parseDigitsAux]
    cases hx : digitVal x with
    | none => simp
    | some d => simp [ih]

theorem parseDigitsAux_pyStrNat (n : Nat) : parseDigitsAux 0 (pyStrNat n) = some n := by
  induction n using Nat.strong_induction_on with
  | _ n ih =>
    unfold pyStrNat
    rw [natDigitsRev_eq]
    by_cases h10 : n < 10
    · simp only [h10, if_true, List.reverse_cons, List.reverse_nil, List.nil_append,
        parseDigitsAux, digitVal_digitChar10 n h10]
      simp [parseDigitsAux]
    · simp only [h10, if_false, List.reverse_cons]
      rw [parseDigitsAux_append]
      have hdiv : n / 10 < n := Nat.div_lt_self (by omega) (by omega)
      have hrec : parseDigitsAux 0 (natDigitsRev (n / 10)).reverse = some (n / 10) := by
        have h := ih (n / 10) hdiv
        unfold pyStrNat at h
        exact h
      rw [hrec, digitVal_digitChar10 (n % 10) (Nat.mod_lt _ (by omega))]
      have : n / 10 * 10 + n % 10 = n := by omega
      simp [this]

theorem pyInt_pyStrNat (n : Nat) : pyInt (pyStrNat n) = some n := by
  have hne : pyStrNat n ≠ [] := by
    unfold pyStrNat
    simp [natDigitsRev_ne_nil]
  have h0 : parseDigitsAux 0 (pyStrNat n) = some n := parseDigitsAux_pyStrNat n
  cases hx : pyStrNat n with
  | nil => exact absurd hx hne
  | cons c cs =>
    rw [hx] at h0
    simp only [parseDigitsAux] at h0
    simp only [pyInt]
    cases hc : digitVal c with
    | none =>
      rw [hc] at h0
      simp at h0
    | some d =>
      rw [hc] at h0
      simpa using h0

/-! ## Chunk-name parsing -/

theorem replaceChunk_chunkLit (xs : List Char) :
    replaceChunk (['c', 'h', 'u', 'n', 'k'] ++ xs) = replaceChunk xs := rfl

theorem replaceChunk_of_digits (xs : List Char) (h : ∀ c ∈ xs, c.isDigit = true) :
    replaceChunk xs = xs := by
  induction xs with
  | nil => rfl
  | cons x xs ih =>
    have hx : x.isDigit = true := h x (List.mem_cons_self x xs)
    have hxs : ∀ c ∈ xs, c.isDigit = true := fun c hc => h c (List.mem_cons_of_mem x hc)
    have hne : x ≠ 'c' := by
      intro he
      rw [he] at hx
      exact absurd hx (by decide)
    rw [replaceChunk.eq_def]
    split
    · rename_i l rest heq
      injection heq with h1 h2
      exact absurd h1 hne
    · rename_i l c rest hnot heq
      injection heq with h1 h2
      rw [← h1, ← h2, ih hxs]
    · rename_i l heq
      exact absurd heq (by simp)

theorem chunkName_strip (i : Nat) :
    (chunkName i).take ((chunkName i).length - 4) =
      ['c', 'h', 'u', 'n', 'k'] ++ pyStrNat i := by
  unfold chunkName
  have hlen : (['c', 'h', 'u', 'n', 'k'] ++ pyStrNat i ++ ['.', 'w', 'a', 'v']).length - 4 =
      (['c', 'h', 'u', 'n', 'k'] ++ pyStrNat i).length := by
    simp
  rw [hlen, List.take_left]

theorem parseChunkIndex_chunkName (i : Nat) : parseChunkIndex (chunkName i) = some i := by
  unfold parseChunkIndex
  rw [chunkName_strip, replaceChunk_chunkLit,
    replaceChunk_of_digits _ (by
      intro c hc
      unfold pyStrNat at hc
      exact natDigitsRev_isDigit i c (List.mem_reverse.mp hc))]
  exact pyInt_pyStrNat i

theorem matchesChunkGlob_chunkName (i : Nat) : matchesChunkGlob (chunkName i) = true := by
  unfold matchesChunkGlob chunkName
  rw [Bool.and_eq_true]
  constructor
  · simp [List.isPrefixOf, List.cons_append]
  · simp only [List.isSuffixOf, List.reverse_append]
    simp [List.isPrefixOf]

theorem parseAllIndices_eq (l : List ChunkFile)
    (h : ∀ f ∈ l, (parseChunkIndex f.name).isSome) :
    parseAllIndices l =
      some (l.map fun f => ((parseChunkIndex f.name).getD 0, f.content)) := by
  induction l with
  | nil => rfl
  | cons f fs ih =>
    obtain ⟨k, hk⟩ := Option.isSome_iff_exists.mp (h f (List.mem_cons_self f fs))
    have hfs := ih fun g hg => h g (List.mem_cons_of_mem f hg)
    simp only [parseAllIndices, hk, hfs, List.map_cons]
    simp [hk]

/-! ## Claim C4: restore reproduces the persisted sequence -/

/-- Claim C4 (confirmed).  For every chunk sequence, restoring from a
directory whose listing contains exactly the persisted artifacts
`chunk0.wav .. chunk{n-1}.wav` — in *any* order `glob` may return them —
parses the numeric index out of each name, sorts numerically and reproduces
the original ordered chunk sequence exactly; an empty directory restores to
the empty sequence. -/
theorem C4_restore_persist :
    (∀ (chunks : List Audio) (listing : List ChunkFile),
      listing.Perm (persist_chunks chunks) →
      find_existing_chunks listing = some chunks) ∧
    find_existing_chunks [] = some [] := by
  refine ⟨?_, rfl⟩
  intro chunks listing hperm
  have hall : ∀ f ∈ persist_chunks chunks, matchesChunkGlob f.name = true := by
    intro f hf
    simp only [persist_chunks, List.mem_map] at hf
    obtain ⟨ic, -, rfl⟩ := hf
    exact matchesChunkGlob_chunkName ic.1
  have hfil : (listing.filter fun f => matchesChunkGlob f.name).Perm
      (persist_chunks chunks) := by
    have h1 := hperm.filter fun f => matchesChunkGlob f.name
    rwa [List.filter_eq_self.mpr hall] at h1
  have hparse : ∀ f ∈ listing.filter fun f => matchesChunkGlob f.name,
      (parseChunkIndex f.name).isSome := by
    intro f hf
    have hmem : f ∈ persist_chunks chunks := hfil.subset hf
    simp only [persist_chunks, List.mem_map] at hmem
    obtain ⟨ic, -, rfl⟩ := hmem
    simp [parseChunkIndex_chunkName]
  have hpersist_map :
      ((persist_chunks chunks).map fun f => ((parseChunkIndex f.name).getD 0, f.content)) =
        chunks.enum := by
    unfold persist_chunks
    rw [List.map_map]
    have hc : ∀ ic ∈ chunks.enum,
        ((fun f : ChunkFile => ((parseChunkIndex f.name).getD 0, f.content)) ∘
          fun ic : Nat × Audio => ChunkFile.mk (chunkName ic.1) ic.2) ic = ic := by
      intro ic _
      simp [Function.comp, parseChunkIndex_chunkName]
    rw [List.map_congr_left hc]
    exact List.map_id chunks.enum
  have hmap : ((listing.filter fun f => matchesChunkGlob f.name).map
      fun f => ((parseChunkIndex f.name).getD 0, f.content)).Perm chunks.enum := by
    have h2 := hfil.map fun f => ((parseChunkIndex f.name).getD 0, f.content)
    rwa [hpersist_map] at h2
  haveI : IsTotal (Nat × Audio) fun a b => a.1 ≤ b.1 := ⟨fun a b => Nat.le_total a.1 b.1⟩
  haveI : IsTrans (Nat × Audio) fun a b => a.1 ≤ b.1 :=
    ⟨fun _ _ _ hab hbc => Nat.le_trans hab hbc⟩
  haveI : IsAntisymm (Nat × Audio) fun a b => a.1 < b.1 :=
    ⟨fun a b h1 h2 => absurd (Nat.lt_trans h1 h2) (Nat.lt_irrefl _)⟩
  have hsp : (List.insertionSort (fun a b : Nat × Audio => a.1 ≤ b.1)
      ((listing.filter fun f => matchesChunkGlob f.name).map
        fun f => ((parseChunkIndex f.name).getD 0, f.content))).Perm chunks.enum :=
    (List.perm_insertionSort _ _).trans hmap
  have hsle : List.Sorted (fun a b : Nat × Audio => a.1 ≤ b.1)
      (List.insertionSort (fun a b : Nat × Audio => a.1 ≤ b.1)
        ((listing.filter fun f => matchesChunkGlob f.name).map
          fun f => ((parseChunkIndex f.name).getD 0, f.content))) :=
    List.sorted_insertionSort _ _
  have hnd : ((List.insertionSort (fun a b : Nat × Audio => a.1 ≤ b.1)
      ((listing.filter fun f => matchesChunkGlob f.name).map
        fun f => ((parseChunkIndex f.name).getD 0, f.content))).map Prod.fst).Nodup := by
    have hpm := hsp.map Prod.fst
    rw [List.enum_map_fst] at hpm
    exact hpm.symm.nodup (List.nodup_range chunks.length)
  have hslt : List.Sorted (fun a b : Nat × Audio => a.1 < b.1)
      (List.insertionSort (fun a b : Nat × Audio => a.1 ≤ b.1)
        ((listing.filter fun f => matchesChunkGlob f.name).map
          fun f => ((parseChunkIndex f.name).getD 0, f.content))) := by
    have hne := List.pairwise_map.mp hnd
    exact List.Pairwise.imp (fun h => lt_of_le_of_ne h.1 h.2) (List.Pairwise.and hsle hne)
  have henum : List.Sorted (fun a b : Nat × Audio => a.1 < b.1) chunks.enum := by
    have hr : (chunks.enum.map Prod.fst).Pairwise (· < ·) := by
      rw [List.enum_map_fst]
      exact List.pairwise_lt_range chunks.length
    exact List.pairwise_map.mp hr
  have heqsort : List.insertionSort (fun a b : Nat × Audio => a.1 ≤ b.1)
      ((listing.filter fun f => matchesChunkGlob f.name).map
        fun f => ((parseChunkIndex f.name).getD 0, f.content)) = chunks.enum :=
    List.eq_of_perm_of_sorted hsp hslt henum
  simp only [find_existing_chunks]
  rw [parseAllIndices_eq _ hparse]
  simp only [heqsort, List.enum_map_snd]

/-- Claim C4 witness: two chunks persisted as `chunk0.wav`, `chunk1.wav` and
listed in reverse order restore to the original sequence. -/
theorem C4_restore_persist_witness :
    find_existing_chunks [⟨chunkName 1, [6]⟩, ⟨chunkName 0, [5]⟩] = some [[5], [6]] :=
  C4_restore_persist.1 [[5], [6]] [⟨chunkName 1, [6]⟩, ⟨chunkName 0, [5]⟩] (by decide)

/-! ## Claim C8: restore is partial on non-numeric chunk names -/

/-- Claim C8 (confirmed).  A directory containing `chunkfoo.wav` — which
matches the glob but whose suffix after `chunk` is not numeric — makes
`find_existing_chunks` raise an uncaught `ValueError` from `int()`
(modelled as `none`) instead of returning a chunk sequence or empty; under
the precondition that every matching file name parses to a numeric index,
restore is total. -/
theorem C8_restore_partial_on_nonnumeric :
    find_existing_chunks [⟨"chunkfoo.wav".toList, [1]⟩] = none ∧
    ∀ files : List ChunkFile,
      (∀ f ∈ files, matchesChunkGlob f.name = true → (parseChunkIndex f.name).isSome) →
      (find_existing_chunks files).isSome := by
  constructor
  · decide
  · intro files h
    simp only [find_existing_chunks]
    rw [parseAllIndices_eq _ ?_]
    · simp
    · intro f hf
      rw [List.mem_filter] at hf
      exact h f hf.1 hf.2

/-- Claim C8 witness: a directory whose only matching file has a numeric
suffix restores successfully. -/
theorem C8_restore_partial_on_nonnumeric_witness :
    (find_existing_chunks [⟨chunkName 3, [5]⟩]).isSome :=
  C8_restore_partial_on_nonnumeric.2 [⟨chunkName 3, [5]⟩] (by decide)

end AutogenSubtitles
